import Mathlib

/-!
# Shallow embedding of the Dreamcatcher actor-style message-passing core

This file embeds the message-passing core of `backend/agents/base_agent.py`
(the `AgentMessage` dataclass, the `BaseAgent` class with its counters,
mailbox and `start` loop, and the `AgentRegistry`), together with the parts
of `backend/agents/agent_classifier.py` needed for the pipeline hand-off
claims, and proves the specification's testable properties about them.

Modelling conventions:
* Python dicts used as payloads are abstracted by a type parameter `α`;
  a concrete worker instantiates it (the classifier uses an explicit
  record of its `data.get(...)` accesses).
* `datetime.utcnow().timestamp()` is modelled as an explicit clock reading
  (a `Nat`) passed to each operation that stamps a message; nothing in the
  Python code constrains successive readings, so theorems quantify over
  the reading sequence.
* A Python exception escaping `process` is modelled by `Except.error`
  carrying `str(e)`; a normal return is `Except.ok`.
* The database-backed activity log (`AgentCRUD.log_agent_activity`) is an
  opaque append-only sink; it is modelled as a ghost list of records in
  the agent state, in append order.
* The single-consumer `start` loop executes `handle_message` to completion
  between two dequeues (it `await`s it inside one `asyncio` task), so one
  loop iteration is one atomic step of the trace machine below.
-/

namespace Dreamcatcher

/-- Python truthiness of an `Optional[str]`: `None` and `""` are falsy.
Used for `if message.correlation_id:` in `BaseAgent.start` and
`if not idea_id` in `AgentClassifier.process`. -/
def pyTruthyStr : Option String → Bool
  | none => false
  | some s => !(s == "")

/-- `AgentMessage` dataclass (base_agent.py lines 11-20): id, sender,
recipient, action, data, timestamp, correlation_id. The payload dict type
is the parameter `α`; the timestamp is a clock reading. -/
structure AgentMessage (α : Type) where
  id : String
  sender : String
  recipient : String
  action : String
  data : α
  timestamp : Nat
  correlation_id : Option String := none
deriving DecidableEq

/-- Status column of an activity-log record
(`AgentCRUD.log_agent_activity(status=...)`). -/
inductive ActivityStatus
  | started
  | completed
  | failed
deriving DecidableEq

/-- One row written to the activity log by `handle_message`
(agent id, action, status, and the error text on the `failed` row). -/
structure ActivityRecord where
  agent_id : String
  action : String
  status : ActivityStatus
  error_message : Option String := none
deriving DecidableEq

/-- The mutable state of a `BaseAgent` instance (base_agent.py lines
25-47): identity, the `is_active` flag, the three performance counters,
and the mailbox `message_queue` (an `asyncio.Queue`, i.e. a FIFO list
with `put` appending and `get` taking the head).  `activity_log` and
`handled` are ghost observers: the records emitted to the external
activity-log sink and the messages handled so far, each in order. -/
structure BaseAgent (α : Type) where
  agent_id : String
  name : String := ""
  description : String := ""
  version : String := "1.0.0"
  is_active : Bool := true
  total_processed : Nat := 0
  success_count : Nat := 0
  failure_count : Nat := 0
  message_queue : List (AgentMessage α) := []
  activity_log : List ActivityRecord := []
  handled : List (AgentMessage α) := []
  enqueued : List (AgentMessage α) := []
deriving DecidableEq

/-- `message_queue.put(message)`: append to the FIFO mailbox.  The ghost
field `enqueued` records every message ever put, in arrival order. -/
def BaseAgent.deliver {α : Type} (ag : BaseAgent α) (m : AgentMessage α) :
    BaseAgent α :=
  { ag with message_queue := ag.message_queue ++ [m],
            enqueued := ag.enqueued ++ [m] }

/-- A fresh agent as built by `BaseAgent.__init__`. -/
def BaseAgent.init (α : Type) (agent_id name description version : String) :
    BaseAgent α :=
  { agent_id := agent_id, name := name, description := description,
    version := version }

/-- `BaseAgent.handle_message` (lines 73-137).  The abstract `process`
hook is the function argument `proc`; `Except.error e` models an
exception with text `e` escaping `process`, which the method catches.
Returns the updated agent state and the value `handle_message` returns
(`None`, i.e. `none`, on the exception path).  The `started` record is
written before processing; `completed`/`failed` after; the counters are
bumped together with the second record (no suspension point separates
the two `+= 1` statements in the source). -/
def BaseAgent.handle_message {α β : Type} (proc : α → Except String β)
    (ag : BaseAgent α) (msg : AgentMessage α) : BaseAgent α × Option β :=
  match proc msg.data with
  | .ok result =>
    ({ ag with
        activity_log := ag.activity_log ++
          [{ agent_id := ag.agent_id, action := msg.action, status := .started },
           { agent_id := ag.agent_id, action := msg.action, status := .completed }],
        success_count := ag.success_count + 1,
        total_processed := ag.total_processed + 1,
        handled := ag.handled ++ [msg] },
     some result)
  | .error e =>
    ({ ag with
        activity_log := ag.activity_log ++
          [{ agent_id := ag.agent_id, action := msg.action, status := .started },
           { agent_id := ag.agent_id, action := msg.action, status := .failed,
             error_message := some e }],
        failure_count := ag.failure_count + 1,
        total_processed := ag.total_processed + 1,
        handled := ag.handled ++ [msg] },
     none)

/-- Result record of `BaseAgent.get_performance_metrics` (lines 139-148). -/
structure PerformanceMetrics where
  agent_id : String
  total_processed : Nat
  success_count : Nat
  failure_count : Nat
  success_rate : Rat
  is_active : Bool

/-- `BaseAgent.get_performance_metrics`:
`success_count / total_processed if total_processed > 0 else 0`. -/
def BaseAgent.get_performance_metrics {α : Type} (ag : BaseAgent α) :
    PerformanceMetrics :=
  { agent_id := ag.agent_id
    total_processed := ag.total_processed
    success_count := ag.success_count
    failure_count := ag.failure_count
    success_rate :=
      if ag.total_processed > 0 then
        (ag.success_count : Rat) / (ag.total_processed : Rat)
      else 0
    is_active := ag.is_active }

/-- The envelope constructed by `BaseAgent.send_message` (lines 191-205):
`id = f"{self.agent_id}_{datetime.utcnow().timestamp()}"`, sender stamped
with the agent's own id, timestamp the same clock reading `now`. -/
def sentEnvelope {α : Type} (agent_id recipient action : String) (d : α)
    (correlation_id : Option String) (now : Nat) : AgentMessage α :=
  { id := agent_id ++ "_" ++ Nat.repr now
    sender := agent_id
    recipient := recipient
    action := action
    data := d
    timestamp := now
    correlation_id := correlation_id }

/-- The reply envelope built by `BaseAgent._send_response` (lines 216-224)
via `send_message`: recipient is the original sender, action is the
original action suffixed `"_response"`, data is the handler result, and
the correlation id is carried over. -/
def responseMessage {α : Type} (agent_id : String) (orig : AgentMessage α)
    (r : α) (now : Nat) : AgentMessage α :=
  sentEnvelope agent_id orig.sender (orig.action ++ "_response") r
    orig.correlation_id now

/-- One iteration of the `BaseAgent.start` loop (lines 165-189), seen from
the worker itself: while active, dequeue the head of the mailbox, run
`handle_message` to completion, then, if the message carried a (truthy)
correlation id and the handler returned a truthy result, send the reply
via `_send_response`.  A reply addressed to another worker goes through
the registry and does not change this worker's state; a reply addressed
to this worker itself lands back in its own mailbox (the registry resolves
the sender's id to this same, active instance).  `truthy` is Python dict
truthiness of the handler result (`if result:`), and `now` the clock
reading stamped on the reply.  An empty mailbox is the
`asyncio.TimeoutError` branch: the loop just continues. -/
def BaseAgent.runStep {α : Type} (proc : α → Except String α)
    (truthy : α → Bool) (ag : BaseAgent α) (now : Nat) : BaseAgent α :=
  if ag.is_active then
    match ag.message_queue with
    | [] => ag
    | m :: rest =>
      let p := BaseAgent.handle_message proc { ag with message_queue := rest } m
      if pyTruthyStr m.correlation_id then
        match p.2 with
        | some r =>
          if truthy r then
            if m.sender == ag.agent_id && p.1.is_active then
              p.1.deliver (responseMessage p.1.agent_id m r now)
            else p.1
          else p.1
        | none => p.1
      else p.1
  else ag

/-- An observable event at a single worker: a producer enqueues a message
(`message_queue.put`, possible from any task at any time), or the worker's
own loop performs one iteration. -/
inductive WorkerOp (α : Type) where
  | deliver (m : AgentMessage α)
  | run (now : Nat)

/-- Apply one event to the worker state. -/
def BaseAgent.applyOp {α : Type} (proc : α → Except String α)
    (truthy : α → Bool) (ag : BaseAgent α) : WorkerOp α → BaseAgent α
  | .deliver m => ag.deliver m
  | .run now => ag.runStep proc truthy now

/-- Run a whole interleaving of enqueues and loop iterations. -/
def BaseAgent.runTrace {α : Type} (proc : α → Except String α)
    (truthy : α → Bool) (ag : BaseAgent α) (ops : List (WorkerOp α)) :
    BaseAgent α :=
  ops.foldl (BaseAgent.applyOp proc truthy) ag

/-- `AgentRegistry` (lines 233-298): the process-wide map from agent id to
instance.  A Python dict is modelled as an association list whose keys
are unique (registration inserts a fresh key at the end and overwrites an
existing one in place, exactly like dict assignment). -/
structure AgentRegistry (α : Type) where
  agents : List (String × BaseAgent α) := []
deriving DecidableEq

/-- `AgentRegistry.register` (lines 240-243):
`self.agents[agent.agent_id] = agent`. -/
def AgentRegistry.register {α : Type} (reg : AgentRegistry α)
    (ag : BaseAgent α) : AgentRegistry α :=
  if reg.agents.any (fun p => p.1 == ag.agent_id) then
    { agents := reg.agents.map
        (fun p => if p.1 == ag.agent_id then (p.1, ag) else p) }
  else { agents := reg.agents ++ [(ag.agent_id, ag)] }

/-- `AgentRegistry.get_agent` (lines 251-253): `self.agents.get(agent_id)`. -/
def AgentRegistry.get_agent {α : Type} (reg : AgentRegistry α)
    (aid : String) : Option (BaseAgent α) :=
  (reg.agents.find? (fun p => p.1 == aid)).map (fun p => p.2)

/-- `AgentRegistry.get_active_agents` (lines 259-261). -/
def AgentRegistry.get_active_agents {α : Type} (reg : AgentRegistry α) :
    List (BaseAgent α) :=
  (reg.agents.filter (fun p => p.2.is_active)).map (fun p => p.2)

/-- In-place mutation of the (unique) registry entry for `aid`, as seen
through the registry: the dict keeps pointing at the same, now-updated,
instance. -/
def AgentRegistry.setAgent {α : Type} (reg : AgentRegistry α) (aid : String)
    (ag : BaseAgent α) : AgentRegistry α :=
  { agents := reg.agents.map (fun p => if p.1 == aid then (p.1, ag) else p) }

/-- `await target_agent.message_queue.put(message)` observed through the
registry entry for `aid`. -/
def AgentRegistry.deliverTo {α : Type} (reg : AgentRegistry α) (aid : String)
    (m : AgentMessage α) : AgentRegistry α :=
  { agents := reg.agents.map
      (fun p => if p.1 == aid then (p.1, p.2.deliver m) else p) }

/-- `AgentRegistry.send_message` (lines 277-283): resolve the recipient;
if found and active, put the envelope in its mailbox, otherwise emit a
warning log line and drop the message.  The second component collects the
warning lines emitted. -/
def AgentRegistry.send_message {α : Type} (reg : AgentRegistry α)
    (m : AgentMessage α) : AgentRegistry α × List String :=
  match reg.get_agent m.recipient with
  | some target =>
    if target.is_active then (reg.deliverTo m.recipient m, [])
    else (reg, ["Agent " ++ m.recipient ++ " not found or inactive"])
  | none => (reg, ["Agent " ++ m.recipient ++ " not found or inactive"])

/-- The envelope constructed inside `AgentRegistry.broadcast_message`
(lines 267-274): `id = f"broadcast_{datetime.utcnow().timestamp()}"`. -/
def broadcastEnvelope {α : Type} (sender recipient action : String) (d : α)
    (now : Nat) : AgentMessage α :=
  { id := "broadcast_" ++ Nat.repr now
    sender := sender
    recipient := recipient
    action := action
    data := d
    timestamp := now
    correlation_id := none }

/-- The `for agent in self.get_active_agents(): if agent.agent_id != sender:`
loop of `broadcast_message`, walking the registry entries.  `clock i` is
the `datetime.utcnow()` reading taken when constructing the `i`-th
delivered envelope (the call sits inside the `if`, so the index advances
only on delivery). -/
def broadcastGo {α : Type} (sender action : String) (d : α)
    (clock : Nat → Nat) :
    List (String × BaseAgent α) → Nat → List (String × BaseAgent α)
  | [], _ => []
  | (k, ag) :: rest, i =>
    if ag.is_active && !(ag.agent_id == sender) then
      (k, ag.deliver (broadcastEnvelope sender ag.agent_id action d (clock i)))
        :: broadcastGo sender action d clock rest (i + 1)
    else (k, ag) :: broadcastGo sender action d clock rest i

/-- `AgentRegistry.broadcast_message` (lines 263-275). -/
def AgentRegistry.broadcast_message {α : Type} (reg : AgentRegistry α)
    (sender action : String) (d : α) (clock : Nat → Nat) : AgentRegistry α :=
  { agents := broadcastGo sender action d clock reg.agents 0 }

/-- One iteration of a worker's `start` loop observed at registry level:
dequeue and handle the head of worker `aid`'s mailbox, and route the
correlated reply (if any) through `AgentRegistry.send_message`.  Returns
the new registry and the warning lines emitted while routing the reply. -/
def AgentRegistry.loopStep {α : Type} (proc : α → Except String α)
    (truthy : α → Bool) (reg : AgentRegistry α) (aid : String) (now : Nat) :
    AgentRegistry α × List String :=
  match reg.get_agent aid with
  | none => (reg, [])
  | some ag =>
    if ag.is_active then
      match ag.message_queue with
      | [] => (reg, [])
      | m :: rest =>
        let p := BaseAgent.handle_message proc { ag with message_queue := rest } m
        let reg' := reg.setAgent aid p.1
        if pyTruthyStr m.correlation_id then
          match p.2 with
          | some r =>
            if truthy r then reg'.send_message (responseMessage p.1.agent_id m r now)
            else (reg', [])
          | none => (reg', [])
        else (reg', [])
    else (reg, [])

/-- All envelopes currently sitting in some registered worker's mailbox. -/
def AgentRegistry.messages {α : Type} (reg : AgentRegistry α) :
    List (AgentMessage α) :=
  (reg.agents.map (fun p => p.2.message_queue)).flatten

/-! ## The classifier stage (`backend/agents/agent_classifier.py`)

Only the parts the pipeline hand-off claims depend on are embedded: the
rule-based classification, the combination with the (external, hence
parameterised) AI classification, the viability heuristic, and the
`process` entry point with its `expander` hand-off.  Scores are exact
small integers in the source (`50.0` plus integer increments, capped at
`100.0`), so they are modelled as `Nat`. -/

/-- Python `needle in hay` over character lists: `needle` occurs as a
contiguous subsequence of `hay`. -/
def containsSeq (needle : List Char) : List Char → Bool
  | [] => needle.isEmpty
  | c :: rest => needle.isPrefixOf (c :: rest) || containsSeq needle rest

/-- Python `keyword in content_lower` (substring containment). -/
def strContains (hay needle : String) : Bool :=
  containsSeq needle.toList hay.toList

/-- Python `content.lower()`, character-wise ASCII case folding (the
contents classified here are ASCII; `String.toLower` maps `Char.toLower`
over the characters exactly like this). -/
def strLower (s : String) : String :=
  ⟨s.data.map Char.toLower⟩

/-- `self.categories` (agent_classifier.py lines 29-35), in insertion
order. -/
def categories : List (String × List String) :=
  [("creative", ["art", "design", "story", "music", "creative", "visual"]),
   ("business", ["business", "startup", "money", "revenue", "product", "market"]),
   ("personal", ["personal", "habit", "routine", "self", "improvement"]),
   ("metaphysical", ["spiritual", "consciousness", "awakening", "meditation", "energy"]),
   ("utility", ["app", "tool", "utility", "helper", "automation", "system"])]

/-- `self.urgency_indicators` (lines 38-42). -/
def urgency_indicators : List (String × List String) :=
  [("high", ["urgent", "asap", "critical", "important", "emergency"]),
   ("medium", ["soon", "needed", "should", "priority"]),
   ("excitement", ["amazing", "brilliant", "genius", "perfect", "incredible",
                   "holy shit", "this is it"])]

/-- `novelty_indicators` local list (line 155). -/
def novelty_indicators : List String :=
  ["new", "innovative", "never", "first", "unique", "original"]

/-- Python `max(iterable, key=...)` over an insertion-ordered score list:
returns the first key attaining the maximal score (later entries replace
the running best only when strictly greater). -/
def argmaxFirst : List (String × Nat) → Option String
  | [] => none
  | (c, s) :: rest => some (argmaxGo c s rest)
where
  argmaxGo (best : String) (bestScore : Nat) : List (String × Nat) → String
    | [] => best
    | (c, s) :: rest =>
      if s > bestScore then argmaxGo c s rest else argmaxGo best bestScore rest

/-- The classification dict assembled by `_rule_based_classification` /
`_classify_idea` (without the `should_expand` key). -/
structure Classification where
  category : String
  urgency_score : Nat
  novelty_score : Nat
  tags : List String
  reasoning : String
deriving DecidableEq

/-- `category_scores` of `_rule_based_classification` (lines 129-133):
per category, the number of its keywords occurring in the lowercased
content. -/
def categoryScores (cl : String) : List (String × Nat) :=
  categories.map (fun p => (p.1, (p.2.filter (fun k => strContains cl k)).length))

/-- Urgency score (lines 138-152): baseline 50, +20 per matched `high`
keyword, +10 per `medium`, +25 per `excitement`, capped at 100. -/
def urgencyScoreOf (cl : String) : Nat :=
  min
    (urgency_indicators.foldl
      (fun acc p =>
        p.2.foldl
          (fun acc2 k =>
            if strContains cl k then
              acc2 + (if p.1 == "high" then 20
                      else if p.1 == "medium" then 10
                      else if p.1 == "excitement" then 25 else 0)
            else acc2)
          acc)
      50)
    100

/-- Novelty score (lines 154-162): baseline 50, +10 per matched
indicator, capped at 100. -/
def noveltyScoreOf (cl : String) : Nat :=
  min
    (novelty_indicators.foldl
      (fun acc i => if strContains cl i then acc + 10 else acc) 50)
    100

/-- Tag extraction (lines 164-174): each category whose keyword list hits
the content, plus `urgent` above urgency 80, else `high-priority` above
65. -/
def ruleTags (cl : String) (urgency : Nat) : List String :=
  let base := categories.foldl
    (fun acc p => if p.2.any (fun k => strContains cl k) then acc ++ [p.1] else acc)
    []
  if urgency > 80 then base ++ ["urgent"]
  else if urgency > 65 then base ++ ["high-priority"]
  else base

/-- `_rule_based_classification` (lines 123-182). -/
def rule_based_classification (content : String) : Classification :=
  let cl := strLower content
  let u := urgencyScoreOf cl
  { category := (argmaxFirst (categoryScores cl)).getD "utility"
    urgency_score := u
    novelty_score := noveltyScoreOf cl
    tags := ruleTags cl u
    reasoning := "Rule-based keyword matching" }

/-- The dict returned by `_ai_classification` (an external AI call): `{}`
when the service is unavailable or parsing fails, otherwise any subset of
these keys.  Each field models `ai_classification.get(key, default)`. -/
structure AIClassification where
  category : Option String := none
  urgency_score : Option Nat := none
  novelty_score : Option Nat := none
  tags : Option (List String) := none
  reasoning : Option String := none
deriving DecidableEq

/-- The combined classification produced by `_classify_idea`, including
the `should_expand` flag. -/
structure ClassificationResult where
  category : String
  urgency_score : Nat
  novelty_score : Nat
  tags : List String
  reasoning : String
  should_expand : Bool
deriving DecidableEq

/-- `_classify_idea` (lines 90-121): merge the rule-based and AI results
(`list(set(a + b))` for tags is modelled as order-normalising
deduplication — the claims depend only on membership) and compute the
viability heuristic
`urgency_score > 60 or novelty_score > 70 or 'urgent' in tags`. -/
def classify_idea (content : String) (ai : AIClassification) :
    ClassificationResult :=
  let basic := rule_based_classification content
  let urgency := max basic.urgency_score (ai.urgency_score.getD 0)
  let novelty := ai.novelty_score.getD basic.novelty_score
  let tags := (basic.tags ++ ai.tags.getD []).dedup
  { category := ai.category.getD basic.category
    urgency_score := urgency
    novelty_score := novelty
    tags := tags
    reasoning := ai.reasoning.getD "Rule-based classification"
    should_expand := urgency > 60 || novelty > 70 || tags.contains "urgent" }

/-- What `AgentClassifier.process` returns: either the `{'error': ...}`
dict (a NORMAL return, not an exception) or the
`{'success': True, 'idea_id': ..., 'classification': ...}` dict. -/
inductive ClassifierOutput
  | errorResult (msg : String)
  | successResult (idea_id : String) (classification : ClassificationResult)
deriving DecidableEq

/-- The `data.get('idea_id')` / `data.get('content', '')` accesses of the
classify payload dict. -/
structure ClassifyPayload where
  idea_id : Option String := none
  content : Option String := none
deriving DecidableEq

/-- A message emitted through `self.send_message` during `process`
(`_trigger_expansion`, lines 242-258, sends recipient `"expander"`,
action `"expand_idea"` with the idea id in the payload). -/
structure SentRequest where
  recipient : String
  action : String
  idea_id : String
deriving DecidableEq

/-- `AgentClassifier.process` (lines 44-88).  `ideaExists` abstracts
`IdeaCRUD.get_idea` returning a row or `None`; `ai` abstracts the
`_ai_classification` result.  Returns the result dict together with the
messages sent while processing.  In this model the database writes
(`update_idea`, `_add_tags`) are side effects outside the core and do not
raise, so `process` always returns normally (its own `try/except` turns
any exception into an `{'error': ...}` dict anyway). -/
def AgentClassifier.process (ideaExists : String → Bool)
    (ai : AIClassification) (d : ClassifyPayload) :
    ClassifierOutput × List SentRequest :=
  let content := d.content.getD ""
  if !(pyTruthyStr d.idea_id) || content == "" then
    (.errorResult "Missing idea_id or content", [])
  else
    let iid := d.idea_id.getD ""
    if !(ideaExists iid) then
      (.errorResult ("Idea " ++ iid ++ " not found"), [])
    else
      let c := classify_idea content ai
      (.successResult iid c,
       if c.should_expand then [⟨"expander", "expand_idea", iid⟩] else [])

/-- `process` wrapped as the abstract hook `handle_message` invokes: the
classifier's `process` has its own `try/except` and always returns a dict,
so the hook never raises in this model. -/
def classifierProc (ideaExists : String → Bool) (ai : AIClassification) :
    ClassifyPayload → Except String ClassifierOutput :=
  fun d => .ok (AgentClassifier.process ideaExists ai d).1

/-! ## Worker-level invariants -/

/-- The mailbox bookkeeping invariant of one worker: the messages handled
so far followed by the messages still queued are exactly the messages
ever enqueued, in arrival order. -/
def WorkerInv {α : Type} (ag : BaseAgent α) : Prop :=
  ag.handled ++ ag.message_queue = ag.enqueued

theorem workerInv_deliver {α : Type} {ag : BaseAgent α}
    (h : WorkerInv ag) (m : AgentMessage α) : WorkerInv (ag.deliver m) := by
  simp only [WorkerInv, BaseAgent.deliver] at h ⊢
  rw [← List.append_assoc, h]

theorem workerInv_runStep {α : Type} (proc : α → Except String α)
    (truthy : α → Bool) {ag : BaseAgent α} (h : WorkerInv ag) (now : Nat) :
    WorkerInv (ag.runStep proc truthy now) := by
  simp only [WorkerInv, BaseAgent.runStep] at h ⊢
  split
  · split
    · exact h
    · rename_i m rest hq
      rw [hq] at h
      have hbase : ∀ (p : BaseAgent α × Option α),
          p = BaseAgent.handle_message proc { ag with message_queue := rest } m →
          p.1.handled ++ p.1.message_queue = p.1.enqueued := by
        intro p hp
        simp only [BaseAgent.handle_message] at hp
        split at hp <;>
          · subst hp
            simpa using h
      split
      · split
        · split
          · split
            · apply workerInv_deliver (hbase _ rfl)
            · exact hbase _ rfl
          · exact hbase _ rfl
        · exact hbase _ rfl
      · exact hbase _ rfl
  · exact h

theorem workerInv_applyOp {α : Type} (proc : α → Except String α)
    (truthy : α → Bool) {ag : BaseAgent α} (h : WorkerInv ag)
    (op : WorkerOp α) : WorkerInv (ag.applyOp proc truthy op) := by
  cases op with
  | deliver m => exact workerInv_deliver h m
  | run now => exact workerInv_runStep proc truthy h now

theorem workerInv_runTrace {α : Type} (proc : α → Except String α)
    (truthy : α → Bool) {ag : BaseAgent α} (h : WorkerInv ag)
    (ops : List (WorkerOp α)) : WorkerInv (ag.runTrace proc truthy ops) := by
  induction ops generalizing ag with
  | nil => exact h
  | cons op rest ih => exact ih (workerInv_applyOp proc truthy h op)

/-- C1: Within a single worker, messages are handled strictly
sequentially in FIFO arrival order.  Along any interleaving of enqueues
(`message_queue.put`, from arbitrary producers) and loop iterations of
`BaseAgent.start` — each iteration dequeues one envelope and runs
`handle_message` to completion before the next dequeue, since the loop is
one sequential task — the sequence of handled messages is always a prefix
of the sequence of enqueued messages: the worker has handled exactly the
first `k` messages enqueued, in arrival order, so of any two messages
enqueued to the same worker the earlier one is handled first. -/
theorem worker_handles_fifo (α : Type) (proc : α → Except String α)
    (truthy : α → Bool) (aid nm ds v : String) (ops : List (WorkerOp α)) :
    (BaseAgent.runTrace proc truthy (BaseAgent.init α aid nm ds v) ops).handled ++
        (BaseAgent.runTrace proc truthy (BaseAgent.init α aid nm ds v) ops).message_queue =
      (BaseAgent.runTrace proc truthy (BaseAgent.init α aid nm ds v) ops).enqueued ∧
    (BaseAgent.runTrace proc truthy (BaseAgent.init α aid nm ds v) ops).handled <+:
      (BaseAgent.runTrace proc truthy (BaseAgent.init α aid nm ds v) ops).enqueued := by
  have h : WorkerInv (BaseAgent.runTrace proc truthy (BaseAgent.init α aid nm ds v) ops) :=
    workerInv_runTrace proc truthy (by simp [WorkerInv, BaseAgent.init]) ops
  exact ⟨h, _, h⟩

/-- Counter bookkeeping of one `handle_message` call: the total advances
by one and exactly one of the success/failure counters advances by one
(success on a normal `process` return, failure on an exception). -/
theorem handle_message_counters {α β : Type} (proc : α → Except String β)
    (ag : BaseAgent α) (msg : AgentMessage α) :
    (ag.handle_message proc msg).1.total_processed = ag.total_processed + 1 ∧
    (((ag.handle_message proc msg).1.success_count = ag.success_count + 1 ∧
      (ag.handle_message proc msg).1.failure_count = ag.failure_count) ∨
     ((ag.handle_message proc msg).1.failure_count = ag.failure_count + 1 ∧
      (ag.handle_message proc msg).1.success_count = ag.success_count)) := by
  cases hp : proc msg.data <;> simp [BaseAgent.handle_message, hp]

/-- The agent state produced by one loop iteration has the counters of the
inner `handle_message` call (the optional reply delivery touches only the
mailbox). -/
theorem runStep_counters {α : Type} (proc : α → Except String α)
    (truthy : α → Bool) (ag : BaseAgent α) (now : Nat) (m : AgentMessage α)
    (rest : List (AgentMessage α)) (hact : ag.is_active = true)
    (hq : ag.message_queue = m :: rest) :
    (ag.runStep proc truthy now).total_processed = ag.total_processed + 1 ∧
    (((ag.runStep proc truthy now).success_count = ag.success_count + 1 ∧
      (ag.runStep proc truthy now).failure_count = ag.failure_count) ∨
     ((ag.runStep proc truthy now).failure_count = ag.failure_count + 1 ∧
      (ag.runStep proc truthy now).success_count = ag.success_count)) := by
  obtain ⟨aid, nm, ds, v, act, tot, suc, fail, q, log, hd, enq⟩ := ag
  dsimp only at hact hq ⊢
  subst hact
  subst hq
  have h := handle_message_counters proc
    { agent_id := aid, name := nm, description := ds, version := v,
      is_active := true, total_processed := tot, success_count := suc,
      failure_count := fail, message_queue := rest, activity_log := log,
      handled := hd, enqueued := enq } m
  dsimp only at h
  simp only [BaseAgent.runStep, if_true]
  repeat' split
  all_goals exact h

/-- The counter invariant `succeeded + failed = total`. -/
def CounterInv {α : Type} (ag : BaseAgent α) : Prop :=
  ag.success_count + ag.failure_count = ag.total_processed

theorem counterInv_applyOp {α : Type} (proc : α → Except String α)
    (truthy : α → Bool) {ag : BaseAgent α} (h : CounterInv ag)
    (op : WorkerOp α) : CounterInv (ag.applyOp proc truthy op) := by
  cases op with
  | deliver m => simpa [CounterInv, BaseAgent.applyOp, BaseAgent.deliver] using h
  | run now =>
    simp only [BaseAgent.applyOp]
    by_cases hact : ag.is_active
    · cases hq : ag.message_queue with
      | nil => simpa [CounterInv, BaseAgent.runStep, hact, hq] using h
      | cons m rest =>
        have hc := runStep_counters proc truthy ag now m rest hact hq
        simp only [CounterInv] at h ⊢
        rcases hc.2 with ⟨hs, hf⟩ | ⟨hf, hs⟩ <;> omega
    · simpa [CounterInv, BaseAgent.runStep, hact] using h

theorem counterInv_runTrace {α : Type} (proc : α → Except String α)
    (truthy : α → Bool) {ag : BaseAgent α} (h : CounterInv ag)
    (ops : List (WorkerOp α)) : CounterInv (ag.runTrace proc truthy ops) := by
  induction ops generalizing ag with
  | nil => exact h
  | cons op rest ih => exact ih (counterInv_applyOp proc truthy h op)

/-- Each counter can only grow across any worker event. -/
theorem applyOp_counters_mono {α : Type} (proc : α → Except String α)
    (truthy : α → Bool) (ag : BaseAgent α) (op : WorkerOp α) :
    ag.total_processed ≤ (ag.applyOp proc truthy op).total_processed ∧
    ag.success_count ≤ (ag.applyOp proc truthy op).success_count ∧
    ag.failure_count ≤ (ag.applyOp proc truthy op).failure_count := by
  cases op with
  | deliver m => simp [BaseAgent.applyOp, BaseAgent.deliver]
  | run now =>
    simp only [BaseAgent.applyOp]
    by_cases hact : ag.is_active
    · cases hq : ag.message_queue with
      | nil => simp [BaseAgent.runStep, hact, hq]
      | cons m rest =>
        have hc := runStep_counters proc truthy ag now m rest hact hq
        rcases hc.2 with ⟨hs, hf⟩ | ⟨hf, hs⟩ <;> omega
    · simp [BaseAgent.runStep, hact]

/-- C3: routing to a recipient that is not registered, or is registered
but inactive, is a silent drop.  `AgentRegistry.send_message` returns
normally (no exception reaches the sender: the function is total, and
`_deliver_message` additionally wraps the call in its own `try/except`),
emits exactly one warning line, and leaves the registry — every worker's
mailbox and all of its counters — completely unchanged. -/
theorem route_unknown_recipient_dropped (α : Type) (reg : AgentRegistry α)
    (m : AgentMessage α)
    (h : ∀ a, reg.get_agent m.recipient = some a → a.is_active = false) :
    reg.send_message m =
      (reg, ["Agent " ++ m.recipient ++ " not found or inactive"]) ∧
    (reg.send_message m).1.messages = reg.messages ∧
    (∀ aid, (reg.send_message m).1.get_agent aid = reg.get_agent aid) := by
  have hmain : reg.send_message m =
      (reg, ["Agent " ++ m.recipient ++ " not found or inactive"]) := by
    unfold AgentRegistry.send_message
    cases hga : reg.get_agent m.recipient with
    | none => rfl
    | some a => simp [h a hga]
  exact ⟨hmain, by rw [hmain], fun aid => by rw [hmain]⟩

/-- Witness for `route_unknown_recipient_dropped`: a registry holding only
an active `capture` worker drops a message addressed to `classify`. -/
theorem route_unknown_recipient_dropped_witness :
    AgentRegistry.send_message
        { agents := [("capture", { agent_id := "capture" : BaseAgent String })] }
        { id := "x_1", sender := "x", recipient := "classify", action := "go",
          data := "d", timestamp := 1 } =
      ({ agents := [("capture", { agent_id := "capture" : BaseAgent String })] },
       ["Agent classify not found or inactive"]) :=
  (route_unknown_recipient_dropped String
    { agents := [("capture", { agent_id := "capture" })] }
    { id := "x_1", sender := "x", recipient := "classify", action := "go",
      data := "d", timestamp := 1 }
    (fun _a ha => Option.noConfusion ha)).1

theorem get_agent_setAgent_self {α : Type} (reg : AgentRegistry α)
    (aid : String) (a b : BaseAgent α) (h : reg.get_agent aid = some a) :
    (reg.setAgent aid b).get_agent aid = some b := by
  obtain ⟨l⟩ := reg
  simp only [AgentRegistry.get_agent, AgentRegistry.setAgent] at h ⊢
  induction l with
  | nil => simp at h
  | cons p t ih =>
    obtain ⟨k, ag⟩ := p
    by_cases hk : k = aid
    · subst hk
      simp [List.find?]
    · have hk' : (k == aid) = false := by simp [hk]
      simp only [List.find?, hk', cond_false] at h
      simp only [List.map_cons, hk', Bool.false_eq_true, if_false,
        List.find?, cond_false]
      exact ih h

theorem get_agent_setAgent_ne {α : Type} (reg : AgentRegistry α)
    (aid k : String) (b : BaseAgent α) (h : k ≠ aid) :
    (reg.setAgent aid b).get_agent k = reg.get_agent k := by
  obtain ⟨l⟩ := reg
  simp only [AgentRegistry.get_agent, AgentRegistry.setAgent]
  induction l with
  | nil => rfl
  | cons p t ih =>
    obtain ⟨k', ag⟩ := p
    by_cases hka : k' = aid
    · subst hka
      have hkk : (k' == k) = false := by simp [Ne.symm h]
      simp only [List.map_cons, beq_self_eq_true, if_true, List.find?,
        hkk, cond_false]
      exact ih
    · have hka' : (k' == aid) = false := by simp [hka]
      simp only [List.map_cons, hka', Bool.false_eq_true, if_false, List.find?]
      by_cases hkk : k' = k
      · subst hkk
        simp [List.find?]
      · have hkk' : (k' == k) = false := by simp [hkk]
        simp only [hkk', cond_false]
        exact ih

theorem get_agent_deliverTo_self {α : Type} (reg : AgentRegistry α)
    (k : String) (m : AgentMessage α) (a : BaseAgent α)
    (h : reg.get_agent k = some a) :
    (reg.deliverTo k m).get_agent k = some (a.deliver m) := by
  obtain ⟨l⟩ := reg
  simp only [AgentRegistry.get_agent, AgentRegistry.deliverTo] at h ⊢
  induction l with
  | nil => simp at h
  | cons p t ih =>
    obtain ⟨k', ag⟩ := p
    by_cases hk : k' = k
    · subst hk
      have hag : ag = a := by
        simpa [List.find?] using h
      subst hag
      simp [List.find?]
    · have hk' : (k' == k) = false := by simp [hk]
      simp only [List.find?, hk', cond_false] at h
      simp only [List.map_cons, hk', Bool.false_eq_true, if_false,
        List.find?, cond_false]
      exact ih h

/-- Any loop iteration that finds a message at the head of an active
worker's mailbox hands exactly that message to `handle_message`,
whatever `process` does with it. -/
theorem runStep_handled {α : Type} (proc : α → Except String α)
    (truthy : α → Bool) (ag : BaseAgent α) (now : Nat) (m : AgentMessage α)
    (rest : List (AgentMessage α)) (hact : ag.is_active = true)
    (hq : ag.message_queue = m :: rest) :
    (ag.runStep proc truthy now).handled = ag.handled ++ [m] := by
  obtain ⟨aid, nm, ds, v, act, tot, suc, fail, q, log, hd, enq⟩ := ag
  dsimp only at hact hq ⊢
  subst hact
  subst hq
  simp only [BaseAgent.runStep, if_true]
  repeat' split
  all_goals cases hp : proc m.data <;>
    simp_all [BaseAgent.handle_message, BaseAgent.deliver]

/-- C2: a handler exception is absorbed.  If `process` raises on the
message at the head of an active worker's mailbox, the loop iteration
consumes that message (the queue becomes its tail and nothing is
re-enqueued — no retry), writes the `started` record followed by a
`failed` record carrying the error text, increments the failure counter
and the total but not the success counter, sends no reply, and leaves the
worker active with its loop able to handle the next queued message and
its mailbox able to accept further deliveries. -/
theorem handler_failure_absorbed (α : Type) (proc : α → Except String α)
    (truthy : α → Bool) (ag : BaseAgent α) (m : AgentMessage α)
    (rest : List (AgentMessage α)) (now : Nat) (e : String)
    (hact : ag.is_active = true) (hq : ag.message_queue = m :: rest)
    (hp : proc m.data = .error e) :
    (ag.runStep proc truthy now).message_queue = rest ∧
    (ag.runStep proc truthy now).activity_log = ag.activity_log ++
      [{ agent_id := ag.agent_id, action := m.action, status := .started },
       { agent_id := ag.agent_id, action := m.action, status := .failed,
         error_message := some e }] ∧
    (ag.runStep proc truthy now).failure_count = ag.failure_count + 1 ∧
    (ag.runStep proc truthy now).success_count = ag.success_count ∧
    (ag.runStep proc truthy now).total_processed = ag.total_processed + 1 ∧
    (ag.runStep proc truthy now).handled = ag.handled ++ [m] ∧
    (ag.runStep proc truthy now).enqueued = ag.enqueued ∧
    (ag.runStep proc truthy now).is_active = true ∧
    (∀ (m2 : AgentMessage α) (rest2 : List (AgentMessage α)) (now2 : Nat),
      rest = m2 :: rest2 →
      ((ag.runStep proc truthy now).runStep proc truthy now2).handled =
        ag.handled ++ [m, m2]) ∧
    (∀ m3 : AgentMessage α,
      ((ag.runStep proc truthy now).deliver m3).message_queue = rest ++ [m3]) := by
  obtain ⟨aid, nm, ds, v, act, tot, suc, fail, q, log, hd, enq⟩ := ag
  dsimp only at hact hq ⊢
  subst hact
  subst hq
  have hstep : BaseAgent.runStep proc truthy
      { agent_id := aid, name := nm, description := ds, version := v,
        is_active := true, total_processed := tot, success_count := suc,
        failure_count := fail, message_queue := m :: rest, activity_log := log,
        handled := hd, enqueued := enq } now =
      { agent_id := aid, name := nm, description := ds, version := v,
        is_active := true, total_processed := tot + 1, success_count := suc,
        failure_count := fail + 1, message_queue := rest,
        activity_log := log ++
          [{ agent_id := aid, action := m.action, status := .started },
           { agent_id := aid, action := m.action, status := .failed,
             error_message := some e }],
        handled := hd ++ [m], enqueued := enq } := by
    simp only [BaseAgent.runStep, BaseAgent.handle_message, hp, if_true]
    split <;> rfl
  rw [hstep]
  refine ⟨rfl, rfl, rfl, rfl, rfl, rfl, rfl, rfl, ?_, fun m3 => rfl⟩
  intro m2 rest2 now2 hrest
  subst hrest
  rw [runStep_handled proc truthy _ now2 m2 rest2 rfl rfl]
  simp

/-- Witness for `handler_failure_absorbed`: a concrete worker whose
handler raises on the queued message. -/
theorem handler_failure_absorbed_witness :
    (BaseAgent.runStep (fun _ => (.error "kaboom" : Except String String))
        (fun _ => true)
        { agent_id := "w",
          message_queue := [{ id := "m1", sender := "a", recipient := "w",
                              action := "go", data := "boom", timestamp := 1 }] }
        7).failure_count =
      ({ agent_id := "w",
         message_queue := [{ id := "m1", sender := "a", recipient := "w",
                             action := "go", data := "boom", timestamp := 1 }] } :
          BaseAgent String).failure_count + 1 :=
  (handler_failure_absorbed String (fun _ => .error "kaboom") (fun _ => true)
    _ _ [] 7 "kaboom" (by decide) rfl rfl).2.2.1

/-- The concrete correlated request used in the C6 counterexample and
witness: sender `a`, recipient `b`, correlation id `corr-1`. -/
def requestC : AgentMessage String :=
  { id := "a_1", sender := "a", recipient := "b", action := "ask",
    data := "q", timestamp := 1, correlation_id := some "corr-1" }

/-- Worker `b` with `requestC` queued. -/
def agentB : BaseAgent String :=
  { agent_id := "b", message_queue := [requestC] }

/-- A registry holding only worker `b` (the sender `a` is unregistered). -/
def regOnlyB : AgentRegistry String := { agents := [("b", agentB)] }

/-- A registry holding active workers `a` and `b`. -/
def regAB : AgentRegistry String :=
  { agents := [("a", { agent_id := "a" }), ("b", agentB)] }

/-- C6 (as written) is false: the reply to a correlated request is routed
through `AgentRegistry.send_message`, so if the original sender is not
itself a registered, active worker, the reply is dropped with a warning
and nobody's mailbox receives it.  Concretely: the registry holds only
worker `b`; `b` handles `requestC` from the unregistered sender `a`
carrying `correlation_id = "corr-1"`, the handler returns the non-empty
result `"result"`, and after the loop iteration no mailbox in the system
contains any envelope — the reply was dropped with a warning instead of
being delivered to the original sender. -/
theorem correlated_reply_dropped_counterexample :
    (AgentRegistry.loopStep (fun _ => .ok "result") (fun s => !(s == ""))
      regOnlyB "b" 2).1.messages = ([] : List (AgentMessage String)) ∧
    (AgentRegistry.loopStep (fun _ => .ok "result") (fun s => !(s == ""))
      regOnlyB "b" 2).2 = ["Agent a not found or inactive"] := by
  constructor <;> rfl

/-- C6 (amended): when a worker handles a message carrying a non-empty
`correlation_id` and its handler returns a non-empty (truthy) result,
and the original sender resolves in the registry to an active worker,
then exactly one reply envelope is appended to that sender's mailbox,
with action the original action suffixed `"_response"`, the same
correlation id, and the handler result as payload; routing emits no
warning. -/
theorem correlated_reply_delivered (α : Type) (proc : α → Except String α)
    (truthy : α → Bool) (reg : AgentRegistry α) (aid : String) (now : Nat)
    (ag : BaseAgent α) (m : AgentMessage α) (rest : List (AgentMessage α))
    (c : String) (r : α) (s : BaseAgent α)
    (hag : reg.get_agent aid = some ag) (hact : ag.is_active = true)
    (hq : ag.message_queue = m :: rest)
    (hc : m.correlation_id = some c) (hc' : c ≠ "")
    (hp : proc m.data = .ok r) (ht : truthy r = true)
    (hs : reg.get_agent m.sender = some s) (hsact : s.is_active = true) :
    (reg.loopStep proc truthy aid now).2 = [] ∧
    ∃ s2, (reg.loopStep proc truthy aid now).1.get_agent m.sender = some s2 ∧
      s2.message_queue =
        (if m.sender = aid then rest else s.message_queue) ++
          [responseMessage ag.agent_id m r now] ∧
      (responseMessage ag.agent_id m r now).action = m.action ++ "_response" ∧
      (responseMessage ag.agent_id m r now).correlation_id = some c ∧
      (responseMessage ag.agent_id m r now).recipient = m.sender ∧
      (responseMessage ag.agent_id m r now).data = r := by
  obtain ⟨aid', nm, ds, v, act, tot, suc, fail, q, log, hd, enq⟩ := ag
  dsimp only at hact hq
  subst hact
  subst hq
  have htr : pyTruthyStr m.correlation_id = true := by
    simp [pyTruthyStr, hc, hc']
  set agS : BaseAgent α :=
    { agent_id := aid', name := nm, description := ds, version := v,
      is_active := true, total_processed := tot + 1,
      success_count := suc + 1, failure_count := fail,
      message_queue := rest,
      activity_log := log ++
        [{ agent_id := aid', action := m.action, status := .started },
         { agent_id := aid', action := m.action, status := .completed }],
      handled := hd ++ [m], enqueued := enq } with hagS
  have hloop : reg.loopStep proc truthy aid now =
      (reg.setAgent aid agS).send_message (responseMessage aid' m r now) := by
    simp only [AgentRegistry.loopStep, hag, BaseAgent.handle_message, hp,
      htr, ht, if_true, hagS]
  have hget : (reg.setAgent aid agS).get_agent m.sender =
      some (if m.sender = aid then agS else s) := by
    by_cases hsenda : m.sender = aid
    · rw [if_pos hsenda, hsenda]
      exact get_agent_setAgent_self reg aid _ agS hag
    · rw [if_neg hsenda, get_agent_setAgent_ne reg aid m.sender agS hsenda]
      exact hs
  have hsactS : (if m.sender = aid then agS else s).is_active = true := by
    by_cases hsenda : m.sender = aid <;> simp [hsenda, hagS, hsact]
  have hfinal : (reg.setAgent aid agS).send_message
      (responseMessage aid' m r now) =
      ((reg.setAgent aid agS).deliverTo m.sender (responseMessage aid' m r now),
       []) := by
    have hrec : (responseMessage aid' m r now).recipient = m.sender := rfl
    simp only [AgentRegistry.send_message, hrec, hget, hsactS, if_true]
  rw [hloop, hfinal]
  refine ⟨rfl,
    (if m.sender = aid then agS else s).deliver (responseMessage aid' m r now),
    get_agent_deliverTo_self _ m.sender _ _ hget, ?_, rfl,
    by simp [responseMessage, sentEnvelope, hc], rfl, rfl⟩
  by_cases hsenda : m.sender = aid <;>
    simp [hsenda, hagS, BaseAgent.deliver]

/-- Witness for `correlated_reply_delivered`: two registered active
workers `a` and `b`; `b` handles the correlated request `requestC` from
`a` without any routing warning (and `a`'s mailbox receives the reply). -/
theorem correlated_reply_delivered_witness :
    (AgentRegistry.loopStep (fun _ => .ok "result") (fun s => !(s == ""))
      regAB "b" 2).2 = [] :=
  (correlated_reply_delivered String (fun _ => .ok "result")
    (fun s => !(s == "")) regAB "b" 2 agentB requestC
    [] "corr-1" "result" { agent_id := "a" }
    rfl rfl rfl rfl (by decide) rfl rfl rfl rfl).1

theorem broadcastGo_length {α : Type} (sender action : String) (d : α)
    (clock : Nat → Nat) (l : List (String × BaseAgent α)) :
    ∀ i0, (broadcastGo sender action d clock l i0).length = l.length := by
  induction l with
  | nil => intro i0; rfl
  | cons p t ih =>
    intro i0
    obtain ⟨k, ag⟩ := p
    unfold broadcastGo
    by_cases hb : (ag.is_active && !(ag.agent_id == sender)) = true <;>
      simp [hb, ih]

/-- Entry-wise effect of the `broadcast_message` loop, for an arbitrary
starting clock index: an active entry whose agent id differs from the
sender gets exactly one broadcast envelope (addressed to it) appended to
its mailbox; every other entry is untouched. -/
theorem broadcastGo_entry {α : Type} (sender action : String) (d : α)
    (clock : Nat → Nat) (l : List (String × BaseAgent α)) :
    ∀ (i0 i : Nat) (k : String) (ag : BaseAgent α),
      l[i]? = some (k, ag) →
      (if ag.is_active = true ∧ ag.agent_id ≠ sender then
        ∃ t, (broadcastGo sender action d clock l i0)[i]? =
          some (k, ag.deliver (broadcastEnvelope sender ag.agent_id action d t))
      else (broadcastGo sender action d clock l i0)[i]? = some (k, ag)) := by
  induction l with
  | nil => intro i0 i k ag h; simp at h
  | cons p t ih =>
    intro i0 i k ag h
    obtain ⟨k', ag'⟩ := p
    cases i with
    | zero =>
      simp only [List.getElem?_cons_zero, Option.some_inj] at h
      cases h
      unfold broadcastGo
      by_cases hc : ag.is_active = true ∧ ag.agent_id ≠ sender
      · have hb : (ag.is_active && !(ag.agent_id == sender)) = true := by
          simp [hc.1, hc.2]
        rw [if_pos hc]
        exact ⟨clock i0, by simp [hb]⟩
      · have hb : ¬((ag.is_active && !(ag.agent_id == sender)) = true) := by
          simp only [Bool.and_eq_true, Bool.not_eq_true', beq_eq_false_iff_ne]
          intro hcontra
          exact hc ⟨hcontra.1, hcontra.2⟩
        rw [if_neg hc]
        simp [Bool.eq_false_iff.mpr hb]
    | succ j =>
      simp only [List.getElem?_cons_succ] at h
      unfold broadcastGo
      by_cases hb : (ag'.is_active && !(ag'.agent_id == sender)) = true
      · simpa [hb] using ih (i0 + 1) j k ag h
      · simpa [Bool.eq_false_iff.mpr hb] using ih i0 j k ag h

/-- C5: `broadcast_message` from sender `S` delivers exactly one envelope,
addressed to it and stamped with sender `S`, into the mailbox of every
currently active worker other than `S`, and delivers nothing to `S`
itself or to any inactive worker. -/
theorem broadcast_targets (α : Type) (reg : AgentRegistry α)
    (sender action : String) (d : α) (clock : Nat → Nat) :
    (reg.broadcast_message sender action d clock).agents.length =
      reg.agents.length ∧
    (∀ (i : Nat) (k : String) (ag : BaseAgent α),
      reg.agents[i]? = some (k, ag) →
      (if ag.is_active = true ∧ ag.agent_id ≠ sender then
        ∃ t, (reg.broadcast_message sender action d clock).agents[i]? =
          some (k, ag.deliver (broadcastEnvelope sender ag.agent_id action d t))
      else (reg.broadcast_message sender action d clock).agents[i]? =
        some (k, ag))) ∧
    (∀ (rcpt : String) (t : Nat),
      (broadcastEnvelope sender rcpt action d t : AgentMessage α).recipient = rcpt ∧
      (broadcastEnvelope sender rcpt action d t : AgentMessage α).sender = sender) := by
  refine ⟨broadcastGo_length sender action d clock reg.agents 0, ?_, fun rcpt t => ⟨rfl, rfl⟩⟩
  intro i k ag h
  exact broadcastGo_entry sender action d clock reg.agents 0 i k ag h

/-- Witness for `broadcast_targets`: broadcasting from `A` over the
registry `{A active, B active, C inactive}` appends exactly one envelope
to `B`'s mailbox. -/
theorem broadcast_targets_witness :
    (if ({ agent_id := "B" } : BaseAgent String).is_active = true ∧
        ({ agent_id := "B" } : BaseAgent String).agent_id ≠ "A" then
      ∃ t, (AgentRegistry.broadcast_message
          { agents := [("A", { agent_id := "A" }), ("B", { agent_id := "B" }),
                       ("C", { agent_id := "C", is_active := false })] }
          "A" "note" "payload" (fun i => i)).agents[1]? =
        some ("B", BaseAgent.deliver { agent_id := "B" }
          (broadcastEnvelope "A"
            ({ agent_id := "B" } : BaseAgent String).agent_id "note" "payload" t))
    else (AgentRegistry.broadcast_message
        { agents := [("A", { agent_id := "A" }), ("B", { agent_id := "B" }),
                     ("C", { agent_id := "C", is_active := false })] }
        "A" "note" "payload" (fun i => i)).agents[1]? =
      some ("B", { agent_id := "B" })) :=
  (broadcast_targets String
    { agents := [("A", { agent_id := "A" }), ("B", { agent_id := "B" }),
                 ("C", { agent_id := "C", is_active := false })] }
    "A" "note" "payload" (fun i => i)).2.1 1 "B" { agent_id := "B" } rfl

theorem mem_messages {α : Type} {reg : AgentRegistry α}
    {m' : AgentMessage α} :
    m' ∈ reg.messages ↔
      ∃ p ∈ reg.agents, m' ∈ (p.2 : BaseAgent α).message_queue := by
  simp only [AgentRegistry.messages, List.mem_flatten, List.mem_map]
  constructor
  · rintro ⟨l, ⟨p, hp, rfl⟩, hm⟩
    exact ⟨p, hp, hm⟩
  · rintro ⟨p, hp, hm⟩
    exact ⟨p.2.message_queue, ⟨p, hp, rfl⟩, hm⟩

theorem mem_messages_deliverTo {α : Type} {reg : AgentRegistry α}
    {k : String} {m m' : AgentMessage α}
    (h : m' ∈ (reg.deliverTo k m).messages) :
    m' ∈ reg.messages ∨ m' = m := by
  rw [mem_messages] at h
  obtain ⟨p', hp', hm'⟩ := h
  simp only [AgentRegistry.deliverTo, List.mem_map] at hp'
  obtain ⟨p, hp, rfl⟩ := hp'
  by_cases hk : (p.1 == k) = true
  · simp only [hk, if_true, BaseAgent.deliver, List.mem_append,
      List.mem_singleton] at hm'
    rcases hm' with hm' | hm'
    · exact Or.inl (mem_messages.mpr ⟨p, hp, hm'⟩)
    · exact Or.inr hm'
  · simp only [hk, Bool.false_eq_true, if_false] at hm'
    exact Or.inl (mem_messages.mpr ⟨p, hp, hm'⟩)

theorem mem_messages_setAgent {α : Type} {reg : AgentRegistry α}
    {aid : String} {b : BaseAgent α} {m' : AgentMessage α}
    (h : m' ∈ (reg.setAgent aid b).messages) :
    m' ∈ reg.messages ∨ m' ∈ b.message_queue := by
  rw [mem_messages] at h
  obtain ⟨p', hp', hm'⟩ := h
  simp only [AgentRegistry.setAgent, List.mem_map] at hp'
  obtain ⟨p, hp, rfl⟩ := hp'
  by_cases hk : (p.1 == aid) = true
  · simp only [hk, if_true] at hm'
    exact Or.inr hm'
  · simp only [hk, Bool.false_eq_true, if_false] at hm'
    exact Or.inl (mem_messages.mpr ⟨p, hp, hm'⟩)

theorem mem_messages_send {α : Type} {reg : AgentRegistry α}
    {m m' : AgentMessage α} (h : m' ∈ (reg.send_message m).1.messages) :
    m' ∈ reg.messages ∨ m' = m := by
  unfold AgentRegistry.send_message at h
  cases hga : reg.get_agent m.recipient with
  | none =>
    rw [hga] at h
    exact Or.inl h
  | some target =>
    rw [hga] at h
    dsimp only at h
    by_cases hact : target.is_active = true
    · rw [if_pos hact] at h
      exact mem_messages_deliverTo h
    · rw [if_neg hact] at h
      exact Or.inl h

/-- Any envelope present after a registry-level loop iteration is either
an envelope that was already present (with all its fields unchanged) or
the freshly constructed reply envelope. -/
theorem mem_messages_loopStep {α : Type} (proc : α → Except String α)
    (truthy : α → Bool) (reg : AgentRegistry α) (aid : String) (now : Nat)
    (m' : AgentMessage α)
    (h : m' ∈ (reg.loopStep proc truthy aid now).1.messages) :
    m' ∈ reg.messages ∨
      ∃ (sid : String) (orig : AgentMessage α) (r : α),
        m' = responseMessage sid orig r now := by
  unfold AgentRegistry.loopStep at h
  cases hga : reg.get_agent aid with
  | none =>
    rw [hga] at h
    exact Or.inl h
  | some ag =>
    rw [hga] at h
    dsimp only at h
    have hmem : ∃ k, (k, ag) ∈ reg.agents := by
      unfold AgentRegistry.get_agent at hga
      cases hfind : reg.agents.find? (fun p => p.1 == aid) with
      | none => rw [hfind] at hga; exact Option.noConfusion hga
      | some p =>
        rw [hfind] at hga
        have hpa : p.2 = ag := by simpa using hga
        refine ⟨p.1, ?_⟩
        rw [← hpa]
        simpa using List.mem_of_find?_eq_some hfind
    obtain ⟨k, hk⟩ := hmem
    by_cases hact : ag.is_active = true
    · rw [if_pos hact] at h
      cases hq : ag.message_queue with
      | nil =>
        rw [hq] at h
        exact Or.inl h
      | cons m0 rest =>
        rw [hq] at h
        dsimp only at h
        have hsetOnly : ∀ x ∈ (reg.setAgent aid
            (BaseAgent.handle_message proc { ag with message_queue := rest } m0).1).messages,
            x ∈ reg.messages := by
          intro x hx
          rcases mem_messages_setAgent hx with hx | hx
          · exact hx
          · have hxq : x ∈ ag.message_queue := by
              have : (BaseAgent.handle_message proc
                  { ag with message_queue := rest } m0).1.message_queue = rest := by
                unfold BaseAgent.handle_message
                split <;> rfl
              rw [this] at hx
              rw [hq]
              exact List.mem_cons_of_mem m0 hx
            exact mem_messages.mpr ⟨(k, ag), hk, hxq⟩
        by_cases hcorr : pyTruthyStr m0.correlation_id = true
        · rw [if_pos hcorr] at h
          cases hp : (BaseAgent.handle_message proc
              { ag with message_queue := rest } m0).2 with
          | none =>
            rw [hp] at h
            exact Or.inl (hsetOnly m' h)
          | some r =>
            rw [hp] at h
            dsimp only at h
            by_cases ht : truthy r = true
            · rw [if_pos ht] at h
              rcases mem_messages_send h with hmm | hmm
              · exact Or.inl (hsetOnly m' hmm)
              · exact Or.inr ⟨(BaseAgent.handle_message proc
                  { ag with message_queue := rest } m0).1.agent_id, m0, r, hmm⟩
            · rw [if_neg ht] at h
              exact Or.inl (hsetOnly m' h)
        · rw [if_neg hcorr] at h
          exact Or.inl (hsetOnly m' h)
    · rw [if_neg hact] at h
      exact Or.inl h

theorem messages_cons {α : Type} (p : String × BaseAgent α)
    (l : List (String × BaseAgent α)) :
    (AgentRegistry.mk (p :: l)).messages =
      p.2.message_queue ++ (AgentRegistry.mk l).messages := by
  simp [AgentRegistry.messages]

theorem mem_messages_broadcastGo {α : Type} (sender action : String) (d : α)
    (clock : Nat → Nat) (l : List (String × BaseAgent α)) :
    ∀ (i0 : Nat) (m' : AgentMessage α),
      m' ∈ (AgentRegistry.mk (broadcastGo sender action d clock l i0)).messages →
      m' ∈ (AgentRegistry.mk l).messages ∨
        ∃ (rcpt : String) (i : Nat),
          m' = broadcastEnvelope sender rcpt action d (clock i) := by
  induction l with
  | nil => intro i0 m' h; exact Or.inl h
  | cons p t ih =>
    intro i0 m' h
    obtain ⟨k, ag⟩ := p
    unfold broadcastGo at h
    by_cases hb : (ag.is_active && !(ag.agent_id == sender)) = true
    · rw [if_pos hb] at h
      rw [messages_cons] at h ⊢
      simp only [BaseAgent.deliver, List.mem_append] at h ⊢
      rcases h with (h | h) | h
      · exact Or.inl (Or.inl h)
      · exact Or.inr ⟨ag.agent_id, i0, List.mem_singleton.mp h⟩
      · rcases ih (i0 + 1) m' h with hh | hh
        · exact Or.inl (Or.inr hh)
        · exact Or.inr hh
    · rw [if_neg hb] at h
      rw [messages_cons] at h ⊢
      simp only [List.mem_append] at h ⊢
      rcases h with h | h
      · exact Or.inl (Or.inl h)
      · rcases ih i0 m' h with hh | hh
        · exact Or.inl (Or.inr hh)
        · exact Or.inr hh

/-- C7: envelopes are never mutated.  Across every core operation —
point-to-point routing, a full loop iteration (including the correlated
reply), and broadcast — every envelope found in any mailbox afterwards is
either an envelope that was already in some mailbox before, with all its
fields (sender, recipient, action, payload, timestamp, correlation id)
identical, or a brand-new envelope built from scratch by the operation
(`responseMessage` for replies, `broadcastEnvelope` for broadcasts, the
routed envelope itself for `send_message`). -/
theorem envelopes_never_mutated (α : Type) (reg : AgentRegistry α)
    (m : AgentMessage α) (proc : α → Except String α) (truthy : α → Bool)
    (aid : String) (now : Nat) (sender action : String) (d : α)
    (clock : Nat → Nat) :
    (∀ m' ∈ (reg.send_message m).1.messages, m' ∈ reg.messages ∨ m' = m) ∧
    (∀ m' ∈ (reg.loopStep proc truthy aid now).1.messages,
      m' ∈ reg.messages ∨
        ∃ (sid : String) (orig : AgentMessage α) (r : α),
          m' = responseMessage sid orig r now) ∧
    (∀ m' ∈ (reg.broadcast_message sender action d clock).messages,
      m' ∈ reg.messages ∨
        ∃ (rcpt : String) (i : Nat),
          m' = broadcastEnvelope sender rcpt action d (clock i)) := by
  refine ⟨fun m' h => mem_messages_send h,
    fun m' h => mem_messages_loopStep proc truthy reg aid now m' h,
    fun m' h => ?_⟩
  obtain ⟨l⟩ := reg
  exact mem_messages_broadcastGo sender action d clock l 0 m' h

/-- Witness for `envelopes_never_mutated`: routing a concrete message into
the one-worker registry leaves the sole resulting mailbox entry equal to
an old envelope or to the routed envelope itself. -/
theorem envelopes_never_mutated_witness :
    ({ agents := [("b", { agent_id := "b" })] } :
        AgentRegistry String).send_message
      { id := "x_1", sender := "x", recipient := "b", action := "go",
        data := "d", timestamp := 1 } |>.1.messages.all
      (fun m' => decide (m' ∈ ({ agents := [("b", { agent_id := "b" })] } :
          AgentRegistry String).messages) ||
        m' == { id := "x_1", sender := "x", recipient := "b", action := "go",
                data := "d", timestamp := 1 }) = true := by
  have h := (envelopes_never_mutated String
    { agents := [("b", { agent_id := "b" })] }
    { id := "x_1", sender := "x", recipient := "b", action := "go",
      data := "d", timestamp := 1 }
    (fun x => .ok x) (fun _ => true) "b" 0 "b" "go" "d" (fun i => i)).1
  rw [List.all_eq_true]
  intro m' hm'
  rcases h m' (by simpa using hm') with hh | hh <;> simp [hh]

/-- C4: for every worker, `succeeded + failed = total` holds at every
point of its execution (every state reachable by a trace of enqueues and
loop iterations from a fresh agent), each handled message bumps the total
by exactly one and exactly one of the success/failure counters by one,
all three counters only ever increase, and the `success_rate` reported by
`get_performance_metrics` equals `success_count / total_processed` (the
`else 0` branch for a fresh agent agrees with the convention
`0 / 0 = 0`). -/
theorem counters_invariant (α : Type) (proc : α → Except String α)
    (truthy : α → Bool) (aid nm ds v : String) (ops : List (WorkerOp α)) :
    (BaseAgent.runTrace proc truthy (BaseAgent.init α aid nm ds v) ops).success_count +
        (BaseAgent.runTrace proc truthy (BaseAgent.init α aid nm ds v) ops).failure_count =
      (BaseAgent.runTrace proc truthy (BaseAgent.init α aid nm ds v) ops).total_processed ∧
    (∀ ag : BaseAgent α,
      (BaseAgent.get_performance_metrics ag).success_rate =
        (ag.success_count : Rat) / (ag.total_processed : Rat)) ∧
    (∀ (ag : BaseAgent α) (op : WorkerOp α),
      ag.total_processed ≤ (ag.applyOp proc truthy op).total_processed ∧
      ag.success_count ≤ (ag.applyOp proc truthy op).success_count ∧
      ag.failure_count ≤ (ag.applyOp proc truthy op).failure_count) ∧
    (∀ (ag : BaseAgent α) (now : Nat) (m : AgentMessage α)
        (rest : List (AgentMessage α)),
      ag.is_active = true → ag.message_queue = m :: rest →
      (ag.runStep proc truthy now).total_processed = ag.total_processed + 1 ∧
      (((ag.runStep proc truthy now).success_count = ag.success_count + 1 ∧
        (ag.runStep proc truthy now).failure_count = ag.failure_count) ∨
       ((ag.runStep proc truthy now).failure_count = ag.failure_count + 1 ∧
        (ag.runStep proc truthy now).success_count = ag.success_count))) := by
  refine ⟨?_, ?_, ?_, ?_⟩
  · exact counterInv_runTrace proc truthy (by simp [CounterInv, BaseAgent.init]) ops
  · intro ag
    simp only [BaseAgent.get_performance_metrics]
    split
    · rfl
    · rename_i htot
      have h0 : ag.total_processed = 0 := by omega
      simp [h0]
  · exact applyOp_counters_mono proc truthy
  · intro ag now m rest hact hq
    exact runStep_counters proc truthy ag now m rest hact hq

/-- The `should_expand` flag computed by `_classify_idea` is exactly the
viability heuristic of the specification:
`urgency_score > 60 or novelty_score > 70 or 'urgent' in tags`. -/
theorem should_expand_iff (content : String) (ai : AIClassification) :
    (classify_idea content ai).should_expand = true ↔
      ((classify_idea content ai).urgency_score > 60 ∨
       (classify_idea content ai).novelty_score > 70 ∨
       "urgent" ∈ (classify_idea content ai).tags) := by
  have h : (classify_idea content ai).should_expand =
      ((classify_idea content ai).urgency_score > 60 ||
       (classify_idea content ai).novelty_score > 70 ||
       (classify_idea content ai).tags.contains "urgent") := rfl
  rw [h]
  simp [List.contains, or_assoc]

/-- C8: a `classify_idea` message handled successfully (present idea,
non-empty id and content) makes the classifier emit exactly one follow-up
message, addressed to the `expander` worker with action `expand_idea`, if
and only if the viability heuristic accepts the combined classification
result (`urgency_score > 60` or `novelty_score > 70` or tag `urgent`
present); the handler returns the success dict, and the
`handle_message` wrapper records exactly one `completed` activity entry
for the handled message. -/
theorem classify_triggers_expansion_iff_viable
    (ideaExists : String → Bool) (ai : AIClassification)
    (iid content : String)
    (h1 : iid ≠ "") (h2 : content ≠ "") (h3 : ideaExists iid = true) :
    ((AgentClassifier.process ideaExists ai ⟨some iid, some content⟩).2 =
        [⟨"expander", "expand_idea", iid⟩] ↔
      ((classify_idea content ai).urgency_score > 60 ∨
       (classify_idea content ai).novelty_score > 70 ∨
       "urgent" ∈ (classify_idea content ai).tags)) ∧
    ((AgentClassifier.process ideaExists ai ⟨some iid, some content⟩).1 =
      .successResult iid (classify_idea content ai)) ∧
    (∀ (ag : BaseAgent ClassifyPayload) (msg : AgentMessage ClassifyPayload),
      msg.data = ⟨some iid, some content⟩ →
      ((ag.handle_message (classifierProc ideaExists ai) msg).1.activity_log.filter
          (fun a => a.status == .completed)).length =
        (ag.activity_log.filter (fun a => a.status == .completed)).length + 1) := by
  have hproc : AgentClassifier.process ideaExists ai ⟨some iid, some content⟩ =
      (.successResult iid (classify_idea content ai),
       if (classify_idea content ai).should_expand then
         [⟨"expander", "expand_idea", iid⟩] else []) := by
    simp [AgentClassifier.process, pyTruthyStr, h1, h2, h3]
  refine ⟨?_, by rw [hproc], ?_⟩
  · rw [hproc]
    by_cases hb : (classify_idea content ai).should_expand = true
    · simp only [hb, if_true]
      exact iff_of_true trivial ((should_expand_iff content ai).mp hb)
    · have hb' : (classify_idea content ai).should_expand = false :=
        Bool.eq_false_iff.mpr hb
      simp only [hb', Bool.false_eq_true, if_false]
      exact iff_of_false (by simp) (fun hr =>
        hb ((should_expand_iff content ai).mpr hr))
  · intro ag msg hdata
    have hok : classifierProc ideaExists ai msg.data =
        .ok (AgentClassifier.process ideaExists ai msg.data).1 := rfl
    simp only [BaseAgent.handle_message, hok]
    have hsc : (ActivityStatus.started == ActivityStatus.completed) = false := rfl
    have hcc : (ActivityStatus.completed == ActivityStatus.completed) = true := rfl
    simp [List.filter_append, List.filter, hsc, hcc]

/-- Witness for `classify_triggers_expansion_iff_viable`: the spec's
concrete scenario (idea `42`, content `build a widget`): the heuristic
rejects it and no expansion message is emitted. -/
theorem classify_triggers_expansion_witness :
    ((AgentClassifier.process (fun _ => true) {} ⟨some "42", some "build a widget"⟩).2 =
        [⟨"expander", "expand_idea", "42"⟩] ↔
      ((classify_idea "build a widget" {}).urgency_score > 60 ∨
       (classify_idea "build a widget" {}).novelty_score > 70 ∨
       "urgent" ∈ (classify_idea "build a widget" {}).tags)) ∧
    (AgentClassifier.process (fun _ => true) {} ⟨some "42", some "build a widget"⟩).2 = [] :=
  ⟨(classify_triggers_expansion_iff_viable (fun _ => true) {} "42" "build a widget"
      (by decide) (by decide) rfl).1,
   by decide⟩

/-- C10: the failure counter moves exactly on handler exceptions.  For
any worker and any message, `handle_message` increments the failure
counter iff `process` raised, and increments the success counter iff
`process` returned normally — whatever the returned value says.  In
particular the classifier's `process` answers a missing `idea_id` with a
NORMAL return of the `{'error': ...}` dict, so the message is recorded as
`completed` and counted as a success, not a failure. -/
theorem failure_counter_iff_exception (α β : Type) :
    (∀ (proc : α → Except String β) (ag : BaseAgent α) (msg : AgentMessage α),
      ((ag.handle_message proc msg).1.failure_count = ag.failure_count + 1 ↔
        ∃ e, proc msg.data = .error e) ∧
      ((ag.handle_message proc msg).1.success_count = ag.success_count + 1 ↔
        ∃ r, proc msg.data = .ok r)) ∧
    (∀ (ideaExists : String → Bool) (ai : AIClassification)
        (ag : BaseAgent ClassifyPayload) (msg : AgentMessage ClassifyPayload),
      msg.data.idea_id = none →
      classifierProc ideaExists ai msg.data =
        .ok (.errorResult "Missing idea_id or content") ∧
      (ag.handle_message (classifierProc ideaExists ai) msg).1.success_count =
        ag.success_count + 1 ∧
      (ag.handle_message (classifierProc ideaExists ai) msg).1.failure_count =
        ag.failure_count ∧
      (ag.handle_message (classifierProc ideaExists ai) msg).1.activity_log =
        ag.activity_log ++
          [{ agent_id := ag.agent_id, action := msg.action, status := .started },
           { agent_id := ag.agent_id, action := msg.action, status := .completed }]) := by
  constructor
  · intro proc ag msg
    cases hp : proc msg.data <;> simp [BaseAgent.handle_message, hp]
  · intro ideaExists ai ag msg hidnone
    have hpd : AgentClassifier.process ideaExists ai msg.data =
        (.errorResult "Missing idea_id or content", []) := by
      simp [AgentClassifier.process, hidnone, pyTruthyStr]
    have hok : classifierProc ideaExists ai msg.data =
        .ok (.errorResult "Missing idea_id or content") := by
      simp [classifierProc, hpd]
    exact ⟨hok, by simp [BaseAgent.handle_message, hok]⟩

/-- Witness for `failure_counter_iff_exception`: a classify message with
no `idea_id` is handled as a success. -/
theorem failure_counter_iff_exception_witness :
    (BaseAgent.handle_message (classifierProc (fun _ => true) {})
        { agent_id := "classifier" }
        { id := "m1", sender := "capture", recipient := "classifier",
          action := "classify_idea", data := ⟨none, some "x"⟩,
          timestamp := 1 }).1.success_count =
      ({ agent_id := "classifier" } : BaseAgent ClassifyPayload).success_count + 1 :=
  ((failure_counter_iff_exception ClassifyPayload ClassifierOutput).2
    (fun _ => true) {} { agent_id := "classifier" }
    { id := "m1", sender := "capture", recipient := "classifier",
      action := "classify_idea", data := ⟨none, some "x"⟩, timestamp := 1 }
    rfl).2.1

/-! ## Decimal rendering of clock readings

`send_message` builds the envelope id as the sender id, an underscore and
the rendered clock reading.  To reason about id collisions we need that
`Nat.repr` is injective; core provides no such lemma, so it is proved
here by exhibiting a left inverse (reading the decimal digits back). -/

/-- Numeric value of a decimal digit character. -/
def digitVal (c : Char) : Nat := c.toNat - 48

theorem digitVal_digitChar : ∀ d : Nat, d < 10 →
    digitVal (Nat.digitChar d) = d := by decide

/-- Read a decimal digit string back into the number it denotes. -/
def digitsVal (l : List Char) : Nat :=
  l.foldl (fun acc c => 10 * acc + digitVal c) 0

theorem foldl_toDigitsCore (fuel : Nat) : ∀ (n : Nat) (ds : List Char),
    n < 10 ^ fuel →
    (Nat.toDigitsCore 10 fuel n ds).foldl
        (fun acc c => 10 * acc + digitVal c) 0 =
      ds.foldl (fun acc c => 10 * acc + digitVal c) n := by
  induction fuel with
  | zero =>
    intro n ds h
    have hn : n = 0 := by simpa using h
    subst hn
    rfl
  | succ f ih =>
    intro n ds h
    unfold Nat.toDigitsCore
    dsimp only
    by_cases hz : n / 10 = 0
    · rw [if_pos hz]
      simp only [List.foldl_cons]
      rw [digitVal_digitChar (n % 10) (Nat.mod_lt _ (by norm_num))]
      have hmod : 10 * 0 + n % 10 = n := by omega
      rw [hmod]
    · rw [if_neg hz]
      have h' : n / 10 < 10 ^ f := by
        rw [Nat.div_lt_iff_lt_mul (by norm_num)]
        calc n < 10 ^ (f + 1) := h
          _ = 10 ^ f * 10 := by rw [Nat.pow_succ]
      rw [ih (n / 10) (Nat.digitChar (n % 10) :: ds) h']
      simp only [List.foldl_cons]
      rw [digitVal_digitChar (n % 10) (Nat.mod_lt _ (by norm_num))]
      rw [Nat.div_add_mod]

theorem digitsVal_toDigits (n : Nat) : digitsVal (Nat.toDigits 10 n) = n := by
  unfold Nat.toDigits digitsVal
  rw [foldl_toDigitsCore (n + 1) n []
    (lt_of_lt_of_le (Nat.lt_pow_self (by norm_num) n)
      (Nat.pow_le_pow_right (by norm_num) (Nat.le_succ n)))]
  rfl

theorem natRepr_injective {n m : Nat} (h : Nat.repr n = Nat.repr m) :
    n = m := by
  have hd : Nat.toDigits 10 n = Nat.toDigits 10 m := congrArg String.data h
  have := congrArg digitsVal hd
  rwa [digitsVal_toDigits, digitsVal_toDigits] at this

/-- Two envelopes from the same sender have the same id exactly when
their stamped clock readings coincide. -/
theorem sentEnvelope_id_inj (aid : String) {n m : Nat}
    (h : aid ++ "_" ++ Nat.repr n = aid ++ "_" ++ Nat.repr m) : n = m := by
  apply natRepr_injective
  apply String.ext
  have hdata := congrArg String.data h
  simp only [String.data_append] at hdata
  exact List.append_cancel_left hdata

/-- One call of `BaseAgent.send_message(recipient, action, data,
correlation_id)`. -/
structure SendCall (α : Type) where
  recipient : String
  action : String
  d : α
  correlation_id : Option String := none
deriving DecidableEq

/-- A sequence of `send_message` calls by one worker, together with the
`datetime.utcnow().timestamp()` readings taken at each call: the `i`-th
call produces the envelope stamped with the `i`-th reading. -/
def sendBatch {α : Type} (agent_id : String) (calls : List (SendCall α))
    (clock : List Nat) : List (AgentMessage α) :=
  (calls.zip clock).map
    (fun p => sentEnvelope agent_id p.1.recipient p.1.action p.1.d
      p.1.correlation_id p.2)

/-- C9 (as written) is false: nothing in `send_message` makes successive
`datetime.utcnow()` readings strictly increase (two sends inside the same
clock microsecond read the same value), and then both the timestamps and
the ids `f"{agent_id}_{timestamp}"` collide.  Concretely: two sends by
`capture` under the clock readings `[5, 5]` produce two envelopes with
equal (not increasing) timestamps and the identical id `"capture_5"`. -/
theorem send_ids_collide_counterexample :
    ¬ (sendBatch "capture"
        [{ recipient := "classify", action := "go", d := (0 : Nat) },
         { recipient := "classify", action := "go", d := (0 : Nat) }]
        [5, 5]).Pairwise (fun a b => a.timestamp < b.timestamp) ∧
    ¬ (sendBatch "capture"
        [{ recipient := "classify", action := "go", d := (0 : Nat) },
         { recipient := "classify", action := "go", d := (0 : Nat) }]
        [5, 5]).Pairwise (fun a b => a.id ≠ b.id) := by
  constructor <;> · intro h; simp [sendBatch, sentEnvelope, List.zip] at h

/-- Zipping against a strictly increasing reading list yields pairs with
strictly increasing second components. -/
theorem pairwise_zip_snd {A B : Type} {R : B → B → Prop} :
    ∀ (l : List A) (l' : List B), l'.Pairwise R →
      (l.zip l').Pairwise (fun p q => R p.2 q.2) := by
  intro l
  induction l with
  | nil => intro l' h; simp
  | cons a t ih =>
    intro l' h
    cases l' with
    | nil => simp
    | cons b t' =>
      rw [List.zip_cons_cons]
      rcases List.pairwise_cons.mp h with ⟨hb, ht'⟩
      refine List.Pairwise.cons ?_ (ih t' ht')
      intro q hq
      obtain ⟨qa, qb⟩ := q
      exact hb qb (List.of_mem_zip hq).2

/-- C9 (amended): provided the clock readings taken at a worker's
successive `send_message` calls are strictly increasing (which the code
itself does not enforce), the timestamps of the envelopes it sends are
strictly increasing in send order, and all the envelope ids it generates
(sender id, underscore, rendered timestamp) are pairwise distinct. -/
theorem send_timestamps_monotonic_ids_unique (α : Type) (aid : String)
    (calls : List (SendCall α)) (clock : List Nat)
    (h : clock.Pairwise (· < ·)) :
    (sendBatch aid calls clock).Pairwise
      (fun a b => a.timestamp < b.timestamp) ∧
    (sendBatch aid calls clock).Pairwise (fun a b => a.id ≠ b.id) := by
  have hz : (calls.zip clock).Pairwise (fun p q => p.2 < q.2) :=
    pairwise_zip_snd calls clock h
  constructor
  · unfold sendBatch
    rw [List.pairwise_map]
    exact hz.imp (fun hpq => hpq)
  · unfold sendBatch
    rw [List.pairwise_map]
    refine hz.imp ?_
    intro p q hpq heq
    exact absurd (sentEnvelope_id_inj aid heq) (Nat.ne_of_lt hpq)

/-- Witness for `send_timestamps_monotonic_ids_unique`: two sends under
the strictly increasing readings `[1, 2]`. -/
theorem send_timestamps_monotonic_witness :
    (sendBatch "capture"
        [{ recipient := "classify", action := "go", d := (0 : Nat) },
         { recipient := "classify", action := "go", d := (0 : Nat) }]
        [1, 2]).Pairwise (fun a b => a.timestamp < b.timestamp) :=
  (send_timestamps_monotonic_ids_unique Nat "capture"
    [{ recipient := "classify", action := "go", d := (0 : Nat) },
     { recipient := "classify", action := "go", d := (0 : Nat) }]
    [1, 2] (by decide)).1

/-- Witness for `counters_invariant`: a concrete worker over `String`
payloads with one queued message takes a loop step and its total counter
advances by exactly one. -/
theorem counters_invariant_witness :
    (BaseAgent.runStep (fun d => if d == "boom" then .error "kaboom" else .ok d)
        (fun _ => true)
        { agent_id := "w",
          message_queue := [{ id := "m1", sender := "a", recipient := "w",
                              action := "go", data := "ok", timestamp := 1 }] }
        7).total_processed =
      ({ agent_id := "w",
         message_queue := [{ id := "m1", sender := "a", recipient := "w",
                             action := "go", data := "ok", timestamp := 1 }] } :
          BaseAgent String).total_processed + 1 :=
  ((counters_invariant String
      (fun d => if d == "boom" then .error "kaboom" else .ok d) (fun _ => true)
      "w" "" "" "1.0.0" []).2.2.2 _ 7 _ [] (by decide) rfl).1

end Dreamcatcher
